import Mathlib

/- Verification development for the Tachyon ADO backend (src/routes.ts).

Modelling conventions:
* Calendar dates are modelled as day numbers (whole days since the Unix epoch,
  dates taken at midnight).  JavaScript `Date.prototype.getDay` of day `d` is
  `(d + 4) % 7`, since day 0 (1970-01-01) was a Thursday (getDay = 4);
  0 denotes Sunday and 6 denotes Saturday, exactly as in JavaScript.
* JavaScript numbers are modelled as rationals (`ℚ`); the arithmetic the
  routes perform on them (+, *, max, comparisons) is modelled exactly.
* Optional / possibly-missing JSON fields are modelled with `Option`.
* Outbound HTTP effects are modelled by explicitly returning the list of
  calls issued (and their stubbed results are passed in as data). -/

/-- JavaScript `getDay` for the date that is `d` whole days after 1970-01-01:
0 = Sunday, …, 6 = Saturday.  Day 0 was a Thursday, hence the offset 4. -/
def jsGetDay (d : Nat) : Nat := (d + 4) % 7

/-- The body of `countBusinessDays` in src/routes.ts (lines 420–429): the
`while (cur <= end)` loop, with `fuel` the number of remaining loop
iterations (`end − cur + 1` on entry) and `cur` the running date.  Each
iteration adds 1 when `cur.getDay()` is neither 0 (Sunday) nor 6 (Saturday),
then advances `cur` by one day. -/
def countBusinessDaysGo : Nat → Nat → Nat
  | 0, _ => 0
  | fuel + 1, cur =>
      (if jsGetDay cur ≠ 0 ∧ jsGetDay cur ≠ 6 then 1 else 0) +
        countBusinessDaysGo fuel (cur + 1)

/-- `countBusinessDays(start, end)` from src/routes.ts lines 420–429: counts
business days between two dates inclusive.  The loop `while (cur <= end)`
runs exactly `end + 1 − start` times (0 when `start > end`, as `Nat`
subtraction truncates, matching the loop never executing). -/
def countBusinessDays (start finish : Nat) : Nat :=
  countBusinessDaysGo (finish + 1 - start) start

/-- The predicate "day `d` is a business day" (weekday Monday–Friday). -/
def isBusinessDay (d : Nat) : Prop := jsGetDay d ≠ 0 ∧ jsGetDay d ≠ 6

instance (d : Nat) : Decidable (isBusinessDay d) := by
  unfold isBusinessDay; infer_instance

/-- An entry of `mapped` in the /compute-capacity handler (src/routes.ts
lines 440–447): an iteration with a path and start/finish dates (entries
lacking either date are filtered out before the selector runs, so the dates
are total here). -/
structure Iteration where
  path : String
  start : Nat
  finish : Nat
deriving Repr, DecidableEq

/-- JavaScript `String.prototype.endsWith` (used at src/routes.ts line 453),
modelled over the underlying character list: `p` is a suffix of `s`. -/
def jsEndsWith (s p : String) : Bool := p.data.isSuffixOf s.data

/-- The tier-1 lookup of one requested path (src/routes.ts line 453):
`mapped.find(m => m.path === p || m.path?.endsWith(p))` — the first known
iteration whose path equals `p` or ends with `p`. -/
def findIteration (mapped : List Iteration) (p : String) : Option Iteration :=
  mapped.find? (fun m => m.path == p || jsEndsWith m.path p)

/-- Tier 1 of the iteration selector (src/routes.ts lines 452–455): iterate
over `iterationPaths.slice(0, 3)` in order, look each path up with
`findIteration`, and push only the found ones. -/
def resolveRequested (mapped : List Iteration) (iterationPaths : List String) : List Iteration :=
  (iterationPaths.take 3).filterMap (findIteration mapped)

/-- Modelled from the spec's words for tier 1 ("resolve each by exact match
or suffix match against known iteration paths, in the order requested; keep
only found matches"), reading "each" as every requested path.  Used only to
compare the claim's statement against the code, which slices to the first
three requested paths. -/
def resolveRequestedSpec (mapped : List Iteration) (iterationPaths : List String) : List Iteration :=
  iterationPaths.filterMap (findIteration mapped)

/-- The tier-1 result of the selector (src/routes.ts lines 450–456):
`targets` after the `if (Array.isArray(iterationPaths) &&
iterationPaths.length >= 3)` block.  `iterationPaths = none` models a
request body whose `iterationPaths` field is absent or not an array. -/
def tier1Targets (mapped : List Iteration) (iterationPaths : Option (List String)) : List Iteration :=
  match iterationPaths with
  | some ps => if 3 ≤ ps.length then resolveRequested mapped ps else []
  | none => []

/-- `upcoming` in the selector (src/routes.ts line 459): the known
iterations whose finish date is on or after the current date (in the order
of `mapped`, which the handler sorted ascending by start date). -/
def upcomingIterations (mapped : List Iteration) (now : Nat) : List Iteration :=
  mapped.filter (fun m => decide (now ≤ m.finish))

/-- The full three-tier iteration selector of the /compute-capacity handler
(src/routes.ts lines 450–466). -/
def selectTargets (mapped : List Iteration) (iterationPaths : Option (List String))
    (now : Nat) : List Iteration :=
  let targets1 := tier1Targets mapped iterationPaths
  let targets2 :=
    if targets1.length < 3 then (upcomingIterations mapped now).take 3 else targets1
  if targets2.length < 3 then mapped.take 3 else targets2

/-- One entry of `cap.activities` (src/routes.ts lines 516–522): per-member
capacity-per-day and days-off, each possibly missing (read with `|| 0`). -/
structure Activity where
  capacityPerDay : Option ℚ
  daysOff : Option ℚ
deriving Repr, DecidableEq

/-- One fetched iteration-capacity record (src/routes.ts lines 511–524):
`iterationPath` may be missing and `activities` may be missing or not an
array (`Array.isArray` guard). -/
structure CapacityRecord where
  iterationPath : Option String
  activities : Option (List Activity)
deriving Repr, DecidableEq

/-- `x || 0` on a possibly-missing JS number: a missing field reads as 0
(`||` also sends a present 0 to 0, which `getD 0` matches). -/
def numOr0 (x : Option ℚ) : ℚ := x.getD 0

/-- The capacity-record accumulation loop (src/routes.ts lines 510–525):
running total over all fetched capacity records.  A record contributes only
when its `iterationPath` is truthy (a non-empty string) and equal to the
iteration's path, and its `activities` is an array; each activity then adds
`Math.max(0, capPerDay * (totalWorkDays - daysOff))`. -/
def iterationCapacitySum (allCaps : List CapacityRecord) (path : String)
    (totalWorkDays : ℚ) : ℚ :=
  allCaps.foldl
    (fun acc cap =>
      match cap.iterationPath with
      | some p =>
          if p ≠ "" ∧ p = path then
            match cap.activities with
            | some acts =>
                acts.foldl
                  (fun a act =>
                    a + max 0 (numOr0 act.capacityPerDay *
                      (totalWorkDays - numOr0 act.daysOff)))
                  acc
            | none => acc
          else acc
      | none => acc)
    0

/-- Modelled from the spec's words for the detailed per-member sum: over the
fetched capacity records whose `iterationPath` equals the iteration's path,
the sum over their activities of
`max(0, capacityPerDay × (totalWorkDays − daysOff))`. -/
def specCapacitySum (allCaps : List CapacityRecord) (path : String)
    (totalWorkDays : ℚ) : ℚ :=
  (((allCaps.filter (fun c => c.iterationPath == some path)).flatMap
      (fun c => c.activities.getD [])).map
      (fun act =>
        max 0 (numOr0 act.capacityPerDay * (totalWorkDays - numOr0 act.daysOff)))).sum

/-- `teamSize` (src/routes.ts lines 469–480): `none` models the member-list
call failing (it is caught and `teamMembers` stays `[]`); the handler then
takes `teamMembers.length || 1`, so an empty or unfetched list gives 1. -/
def teamSizeOf (members : Option (List Unit)) : Nat :=
  let ms := members.getD []
  if ms.length = 0 then 1 else ms.length

/-- Per-iteration capacity for a selected iteration (src/routes.ts lines
506–534): total work days via `countBusinessDays`, the detailed per-member
sum, the fallback `totalWorkDays * teamSize` when that sum is 0 and the
team size is positive, and the final clamp `Math.max(0, …)`. -/
def computeIterationCapacity (allCaps : List CapacityRecord) (teamSize : Nat)
    (it : Iteration) : ℚ :=
  let totalWorkDays : ℚ := (countBusinessDays it.start it.finish : ℚ)
  let detailed := iterationCapacitySum allCaps it.path totalWorkDays
  let total :=
    if detailed = 0 ∧ 0 < teamSize then totalWorkDays * (teamSize : ℚ) else detailed
  max 0 total

/-- One slot of the `for (let i = 0; i < 3; i++)` loop (src/routes.ts lines
499–535): a missing target (`targets[i]` undefined) contributes 0. -/
def capacitySlot (targets : List Iteration) (allCaps : List CapacityRecord)
    (teamSize : Nat) (i : Nat) : ℚ :=
  match targets[i]? with
  | none => 0
  | some it => computeIterationCapacity allCaps teamSize it

/-- The `capacities` object of the /compute-capacity response body. -/
structure CapacityTriple where
  n : ℚ
  n1 : ℚ
  n2 : ℚ
deriving Repr, DecidableEq

/-- The response construction (src/routes.ts line 537): `{ n: capacities[0]
|| 0, n1: capacities[1] || 0, n2: capacities[2] || 0 }` (each slot exists,
and `|| 0` sends a present 0 to itself, so the three slots are read off
directly). -/
def capacityResponse (targets : List Iteration) (allCaps : List CapacityRecord)
    (teamSize : Nat) : CapacityTriple :=
  { n := capacitySlot targets allCaps teamSize 0,
    n1 := capacitySlot targets allCaps teamSize 1,
    n2 := capacitySlot targets allCaps teamSize 2 }

/-- A task item of the /create-tasks request body (src/routes.ts lines
12–15). -/
structure CreateTaskInput where
  title : String
  description : String
deriving Repr, DecidableEq

/-- The /create-tasks response (src/routes.ts lines 202–210): `{ success:
true, createdTasks }` on success, or the catch block's
`res.status(500).json({ error: "Task creation failed" })`.  The error body
carries no information about which items succeeded. -/
inductive CreateTasksResponse where
  | ok (createdTasks : List Nat)
  | err (status : Nat) (error : String)
deriving Repr, DecidableEq

/-- The `for (const task of tasks)` loop of the /create-tasks handler
(src/routes.ts lines 167–200) run against a stubbed work-item service: each
entry pairs a task with the outcome of its outbound create call
(`Except.ok id` for a successful response with the created id,
`Except.error ()` for a failing call, which throws).  `created` is the
`createdTasks` accumulator.  Returns the handler's response together with
the list of item ids created upstream so far (the loop's external side
effects); a failing call aborts the loop into the catch block, with no
rollback of the items already created. -/
def createTasksLoop : List (CreateTaskInput × Except Unit Nat) → List Nat →
    CreateTasksResponse × List Nat
  | [], created => (CreateTasksResponse.ok created, created)
  | (_, outcome) :: rest, created =>
      match outcome with
      | Except.ok newId => createTasksLoop rest (created ++ [newId])
      | Except.error _ =>
          (CreateTasksResponse.err 500 "Task creation failed", created)

/-- The /create-tasks handler body (src/routes.ts lines 165–210): run the
loop with an empty `createdTasks`. -/
def createTasksHandler (calls : List (CreateTaskInput × Except Unit Nat)) :
    CreateTasksResponse × List Nat :=
  createTasksLoop calls []

/-- One entry of the /update-stories request body (src/routes.ts lines
373–394): `id`, `title` and `storyPoints` may each be absent. -/
structure StoryUpdate where
  id : Option Int
  title : Option String
  storyPoints : Option ℚ
deriving Repr, DecidableEq

/-- One JSON-Patch operation pushed by the /update-stories handler
(src/routes.ts lines 376–381). -/
inductive PatchOp where
  | setTitle (value : String)
  | setStoryPoints (value : ℚ)
deriving Repr, DecidableEq

/-- The `ops` document built for one story (src/routes.ts lines 375–381):
a title op when `story.title !== undefined`, then a story-points op when
`story.storyPoints !== undefined`. -/
def storyOps (s : StoryUpdate) : List PatchOp :=
  (match s.title with
   | some t => [PatchOp.setTitle t]
   | none => []) ++
  (match s.storyPoints with
   | some p => [PatchOp.setStoryPoints p]
   | none => [])

/-- JS truthiness of `story.id` (`if (!story.id) continue`, src/routes.ts
line 374): present and non-zero (the number 0 is falsy). -/
def hasTruthyId (s : StoryUpdate) : Bool :=
  match s.id with
  | some i => decide (i ≠ 0)
  | none => false

/-- The /update-stories loop (src/routes.ts lines 372–395): returns the
response's `updatedIds` together with the outbound PATCH calls issued
(story id paired with its JSON-Patch ops, in input order).  A story with a
falsy id is skipped (`continue`); a story with no ops
(`ops.length > 0` fails) issues no call and adds no id. -/
def updateStoriesRun : List StoryUpdate → List Int × List (Int × List PatchOp)
  | [] => ([], [])
  | s :: rest =>
      match s.id with
      | none => updateStoriesRun rest
      | some i =>
          if i = 0 then updateStoriesRun rest
          else if 0 < (storyOps s).length then
            (i :: (updateStoriesRun rest).1,
             (i, storyOps s) :: (updateStoriesRun rest).2)
          else updateStoriesRun rest

/-- A JSON value as far as the `typeof message === "string"` check in
`generate` distinguishes them (src/routes.ts lines 782–783, the appended
openai module): a string, or any non-string value (null, number, array,
object, …). -/
inductive JsValue where
  | str (s : String)
  | nonString
deriving Repr, DecidableEq

/-- `message` of one completion choice; `content` may be absent or null
(both read as "no string content"). -/
structure ChatMessage where
  content : Option JsValue
deriving Repr, DecidableEq

/-- One entry of `completion.choices`; `message` may be absent. -/
structure ChatChoice where
  message : Option ChatMessage
deriving Repr, DecidableEq

/-- A chat completion as returned by the generation service; `choices` may
be absent or not an array. -/
structure ChatCompletion where
  choices : Option (List ChatChoice)
deriving Repr, DecidableEq

/-- `completion.choices?.[0]?.message?.content` (src/routes.ts line 782):
optional chaining through every possibly-missing link. -/
def extractContent (c : ChatCompletion) : Option JsValue :=
  ((c.choices.bind (fun l => l[0]?)).bind ChatChoice.message).bind ChatMessage.content

/-- The result relay of `generate` (src/routes.ts lines 782–785): return
the first choice's message content when `typeof` says it is a string,
otherwise return the empty string. -/
def generateResult (c : ChatCompletion) : String :=
  match extractContent c with
  | some (JsValue.str s) => s
  | _ => ""

/-- The /analyze response as far as C10 is concerned. -/
inductive AnalyzeResponse where
  | ok (output : String)
  | badRequest (error : String)
deriving Repr, DecidableEq

/-- The /analyze handler (src/routes.ts lines 113–133) with the generation
service stubbed by the completion it returns: `!title || !action` (the
empty string is falsy) gives 400 `{ error: "Missing title or action" }`,
otherwise 200 `{ output }` with the relayed generation result.  The built
prompt only feeds the stubbed service, whose reply is `completion`. -/
def analyzeHandler (title action : String) (completion : ChatCompletion) :
    AnalyzeResponse :=
  if title = "" ∨ action = "" then AnalyzeResponse.badRequest "Missing title or action"
  else AnalyzeResponse.ok (generateResult completion)

/-- The `sprintPoints` argument of `buildPrompt` (src/routes.ts line 554). -/
structure SprintPoints where
  n : ℚ
  n1 : ℚ
  n2 : ℚ
deriving Repr, DecidableEq

/-- JS template interpolation of `sprintPoints?.n` (src/routes.ts lines
571–573): the text "undefined" when the object is absent, else the
number. -/
def renderOptNum (x : Option ℚ) : String :=
  match x with
  | some q => toString q
  | none => "undefined"

/-- `buildPrompt` (src/routes.ts lines 549–747).  The `switch (action)` is a
sequence of strict string comparisons, modelled as an if-chain; each
recognized case returns its template literal (transcribed verbatim, with
JS interpolations spliced by concatenation; `storiesJson` stands for the
already-serialized `JSON.stringify(stories, null, 2)` text, and `ty` for
the `type` parameter).  The default case returns the bare `title`. -/
def buildPrompt (title desc ty action : String) (sprintPoints : Option SprintPoints)
    (storiesJson : String) : String :=
  if action = "sprintplan" then
    "
      You are an Agile Sprint Planning Assistant.

      TASK:
      Allocate the provided user stories across three sprints.

      INPUT:
      Feature Title: " ++ title ++ "

      Sprint Capacities:
      - Sprint N: " ++ renderOptNum (sprintPoints.map SprintPoints.n) ++ "
      - Sprint N+1: " ++ renderOptNum (sprintPoints.map SprintPoints.n1) ++ "
      - Sprint N+2: " ++ renderOptNum (sprintPoints.map SprintPoints.n2) ++ "

      User Stories (in given order):
      " ++ storiesJson ++ "

      PLANNING RULES (STRICT):
      1. Follow EXACT story order (do NOT reorder)
      2. Sprint capacity MUST be completely filled using whole stories
      3. **Stories MUST NOT be split across sprints.**
      4. Move a story to the next sprint only when the remaining capacity in the current sprint is less than the story\x27s points
      5. Do NOT modify story points
      6. Do NOT invent stories
      7. Stop if backlog exhausted

      OUTPUT FORMAT (STRICT JSON ONLY):

      \x7b
        \"sprints\": [
          \x7b
            \"name\": \"Sprint N\",
            \"capacity\": number,
            \"allocatedPoints\": number,
            \"stories\": [
              \x7b
                \"id\": \"string\",
                \"title\": \"string\",
                \"allocatedPoints\": number,
                \"remainingPoints\": number
              \x7d
            ]
          \x7d
        ],
        \"unallocatedStories\": [
          \x7b
            \"id\": \"string\",
            \"title\": \"string\",
            \"remainingPoints\": number
          \x7d
        ]
      \x7d

      VALIDATION:
      - allocatedPoints MUST equal sprint capacity
      - No negative numbers
      - JSON must be valid

    "
  else if action = "stories" then
    "
    You are a Senior Product Owner.

    Generate Agile User Stories for the following Feature.

    Rules:
    - Follow Agile best practices (INVEST)
    - Stories should be as independent as possible
    - Minimize dependencies unless unavoidable
    - Each story must be <= 10 story points
    - 1 Story Point = 8 hours
    - Estimate story points relatively
    - Assign:
      - storyPoints (number, max 10)
      - rank (execution order)
      - priority = Based on rank + dependency + business value (\"type\": \"integer\", \"description\": \"Business importance. 1=must fix; 4=unimportant.\" and range 1-4)
      - risk ( \"type\": \"string\", \"description\": \"Uncertainty in epic\" Accepts only : \"1 - High\", \"2 - Medium\", \"3 - Low\")

    Return ONLY valid JSON.

    JSON format:
    \x7b
      \"userStories\": [
        \x7b
          \"title\": \"\",
          \"description\": \"\",
          \"storyPoints\": 3,
          \"rank\": 1,
          \"priority\": 1,
          \"dependency\": \"\"
        \x7d
      ]
    \x7d

    Feature Title:
    " ++ title ++ "

    Feature Description:
    " ++ desc ++ "
    "
  else if action = "tasks" then
    "
      You are a Senior Azure DevOps Engineer.

      Break the following User Story into implementation tasks.

      Rules:
      - Consider story complexity
      - Ensure tasks align with estimated Story Points
      - Avoid over-fragmentation
      - Return ONLY valid JSON

      JSON format:
      \x7b
        \"tasks\": [
          \x7b
            \"title\": \"\",
            \"description\": \"\"
          \x7d
        ]
      \x7d

      User Story Title:
      " ++ title ++ "

      User Story Description:
      " ++ desc ++ "
      "
  else if action = "testcases" then
    "
      You are a Senior QA Engineer.

      Generate Azure DevOps Test Cases for the following User Story.

      Rules:
      - Return ONLY valid JSON
      - No markdown
      - No explanations

      JSON format:
      \x7b
        \"testCases\": [
          \x7b
            \"title\": \"\",
            \"steps\": [
              \x7b
                \"action\": \"\",
                \"expected\": \"\"
              \x7d
            ]
          \x7d
        ]
      \x7d

      User Story Title:
      " ++ title ++ "

      User Story Description:
      " ++ desc ++ "
      "
  else if action = "description" then
    "Write a clear, professional Azure DevOps description only in the Gherkin format for the following " ++
      ty ++ ": " ++ title ++ ". Directly give descriptiion no need of heading"
  else if action = "criteria" then
    "Generate professional acceptance criteria only in the Gherkin format for the following User Story: " ++
      title ++ ". Directly give Acceptance criteria without heading in point vice fashion with <br> tags at the end of each point"
  else if action = "tests" then
    "You are a Senior QA Engineer. Create test cases for: " ++ title
  else if action = "bug" then
    "Summarize this bug clearly and professionally: " ++ desc
  else title

theorem countBusinessDaysGo_eq_countP (fuel : Nat) :
    ∀ s : Nat, countBusinessDaysGo fuel s =
      (List.range' s fuel).countP (fun d => decide (isBusinessDay d)) := by
  induction fuel with
  | zero => intro s; simp [countBusinessDaysGo]
  | succ n ih =>
      intro s
      rw [countBusinessDaysGo, List.range'_succ, List.countP_cons, ih (s + 1)]
      by_cases h : isBusinessDay s
      · simp [isBusinessDay] at h
        simp [isBusinessDay, h, Nat.add_comm]
      · simp [isBusinessDay] at h ⊢
        omega

theorem countBusinessDaysGo_monday (s : Nat) (h : jsGetDay s = 1) :
    countBusinessDaysGo 7 s = 5 := by
  rw [jsGetDay] at h
  have h1 : (s + 1 + 4) % 7 = 2 := by omega
  have h2 : (s + 1 + 1 + 4) % 7 = 3 := by omega
  have h3 : (s + 1 + 1 + 1 + 4) % 7 = 4 := by omega
  have h4 : (s + 1 + 1 + 1 + 1 + 4) % 7 = 5 := by omega
  have h5 : (s + 1 + 1 + 1 + 1 + 1 + 4) % 7 = 6 := by omega
  have h6 : (s + 1 + 1 + 1 + 1 + 1 + 1 + 4) % 7 = 0 := by omega
  simp [countBusinessDaysGo, jsGetDay, h, h1, h2, h3, h4, h5, h6]

/-- C1: for start ≤ end, `countBusinessDays` returns the number of calendar
dates `d` with start ≤ d ≤ end whose weekday is Monday through Friday
(i.e. neither Saturday nor Sunday); in particular a 7-day range starting on
a Monday yields 5. -/
theorem countBusinessDays_counts_weekdays (start finish : Nat) (h : start ≤ finish) :
    countBusinessDays start finish =
      ((Finset.Icc start finish).filter (fun d => isBusinessDay d)).card ∧
    (jsGetDay start = 1 → finish = start + 6 → countBusinessDays start finish = 5) := by
  constructor
  · rw [countBusinessDays, countBusinessDaysGo_eq_countP, Nat.Icc_eq_range']
    simp [Finset.filter, Finset.card, List.countP_eq_length_filter]
  · intro hm hf
    subst hf
    rw [countBusinessDays]
    have e : start + 6 + 1 - start = 7 := by omega
    rw [e]
    exact countBusinessDaysGo_monday start hm

theorem countBusinessDays_counts_weekdays_witness :
    (4 ≤ 10 ∧
      (countBusinessDays 4 10 =
        ((Finset.Icc 4 10).filter (fun d => isBusinessDay d)).card ∧
      (jsGetDay 4 = 1 → 10 = 4 + 6 → countBusinessDays 4 10 = 5))) ∧
    countBusinessDays 4 10 = 5 :=
  ⟨⟨by decide, countBusinessDays_counts_weekdays 4 10 (by decide)⟩, by decide⟩

/-- C5: for start > end, `countBusinessDays` returns 0 (the `while` loop
guard fails immediately; the result is never negative and no exception is
possible, the function being total with codomain `Nat`). -/
theorem countBusinessDays_start_after_end (start finish : Nat) (h : finish < start) :
    countBusinessDays start finish = 0 := by
  rw [countBusinessDays]
  have e : finish + 1 - start = 0 := by omega
  rw [e]
  rfl

theorem countBusinessDays_start_after_end_witness :
    (3 : Nat) < 5 ∧ countBusinessDays 5 3 = 0 :=
  ⟨by decide, countBusinessDays_start_after_end 5 3 (by decide)⟩

theorem length_filterMap_of_isSome {α β : Type} (f : α → Option β) :
    ∀ l : List α, (∀ a ∈ l, (f a).isSome) → (l.filterMap f).length = l.length := by
  intro l
  induction l with
  | nil => simp
  | cons x xs ih =>
      intro h
      rcases hx : f x with _ | y
      · exact absurd (h x (by simp)) (by simp [hx])
      · have hc : List.filterMap f (x :: xs) = y :: List.filterMap f xs := by
          simp [List.filterMap_cons, hx]
        rw [hc]
        simp only [List.length_cons]
        rw [ih (fun a ha => h a (by simp [ha]))]

/-- C3 (counterexample): with four known iterations s1–s4 and the four
requested paths "s1","s2","s3","s4" — a list of at least three requested
paths, every one of which resolves — the selector does not resolve each
requested path: it slices the request to the first three, so the fourth
found match is dropped. -/
theorem selectTargets_requested_counterexample :
    selectTargets [⟨"s1", 0, 1⟩, ⟨"s2", 2, 3⟩, ⟨"s3", 4, 5⟩, ⟨"s4", 6, 7⟩]
        (some ["s1", "s2", "s3", "s4"]) 0 ≠
      resolveRequestedSpec [⟨"s1", 0, 1⟩, ⟨"s2", 2, 3⟩, ⟨"s3", 4, 5⟩, ⟨"s4", 6, 7⟩]
        ["s1", "s2", "s3", "s4"] := by decide

/-- C3 (amended): given at least three requested paths, the selector
resolves each of the first three requested paths, in the order requested,
by exact match or suffix match against the known iteration paths, keeping
only found matches; when all of the first three resolve, the selector
returns exactly those three resolved iterations (in the requested order)
and the later fallback tiers do not fire. -/
theorem selectTargets_requested (mapped : List Iteration) (ps : List String) (now : Nat)
    (h3 : 3 ≤ ps.length)
    (hall : ∀ p ∈ ps.take 3, (findIteration mapped p).isSome) :
    selectTargets mapped (some ps) now = (ps.take 3).filterMap (findIteration mapped) ∧
    (selectTargets mapped (some ps) now).length = 3 := by
  have hlen : ((ps.take 3).filterMap (findIteration mapped)).length = 3 := by
    rw [length_filterMap_of_isSome _ _ hall, List.length_take]
    omega
  have ht1 : tier1Targets mapped (some ps) = (ps.take 3).filterMap (findIteration mapped) := by
    simp [tier1Targets, resolveRequested, h3]
  have hsel : selectTargets mapped (some ps) now = (ps.take 3).filterMap (findIteration mapped) := by
    simp [selectTargets, ht1, hlen]
  exact ⟨hsel, by rw [hsel, hlen]⟩

theorem selectTargets_requested_witness :
    (selectTargets
        [⟨"Proj\\Iter1", 0, 5⟩, ⟨"Proj\\Iter2", 10, 15⟩, ⟨"Proj\\Iter3", 20, 25⟩,
          ⟨"Proj\\Iter4", 30, 35⟩, ⟨"Proj\\Iter5", 40, 45⟩]
        (some ["Iter4", "Proj\\Iter2", "Iter1"]) 99 =
      (["Iter4", "Proj\\Iter2", "Iter1"].take 3).filterMap
        (findIteration
          [⟨"Proj\\Iter1", 0, 5⟩, ⟨"Proj\\Iter2", 10, 15⟩, ⟨"Proj\\Iter3", 20, 25⟩,
            ⟨"Proj\\Iter4", 30, 35⟩, ⟨"Proj\\Iter5", 40, 45⟩]) ∧
      (selectTargets
        [⟨"Proj\\Iter1", 0, 5⟩, ⟨"Proj\\Iter2", 10, 15⟩, ⟨"Proj\\Iter3", 20, 25⟩,
          ⟨"Proj\\Iter4", 30, 35⟩, ⟨"Proj\\Iter5", 40, 45⟩]
        (some ["Iter4", "Proj\\Iter2", "Iter1"]) 99).length = 3) ∧
    selectTargets
        [⟨"Proj\\Iter1", 0, 5⟩, ⟨"Proj\\Iter2", 10, 15⟩, ⟨"Proj\\Iter3", 20, 25⟩,
          ⟨"Proj\\Iter4", 30, 35⟩, ⟨"Proj\\Iter5", 40, 45⟩]
        (some ["Iter4", "Proj\\Iter2", "Iter1"]) 99 =
      [⟨"Proj\\Iter4", 30, 35⟩, ⟨"Proj\\Iter2", 10, 15⟩, ⟨"Proj\\Iter1", 0, 5⟩] :=
  ⟨selectTargets_requested _ _ _ (by decide) (by decide), by decide⟩

/-- C4: whenever tier 1 resolves fewer than three requested paths
(including when none were requested), its partial result is discarded and
the selector takes the first three of the upcoming iterations (finish date
on or after the current date, in the start-date-ascending order of the
sorted input); if that still yields fewer than three it takes the first
three of all iterations regardless; and each later tier fires only when the
earlier one under-produced (tier 1 producing three is returned as is).  The
upcoming pool is sorted ascending by start date whenever the input is, and
holds exactly the iterations whose finish date is ≥ the current date. -/
theorem selectTargets_three_tier (mapped : List Iteration) (ips : Option (List String))
    (now : Nat) (hsorted : mapped.Pairwise (fun a b => a.start ≤ b.start)) :
    ((tier1Targets mapped ips).length < 3 →
        3 ≤ (upcomingIterations mapped now).length →
        selectTargets mapped ips now = (upcomingIterations mapped now).take 3) ∧
    ((tier1Targets mapped ips).length < 3 →
        (upcomingIterations mapped now).length < 3 →
        selectTargets mapped ips now = mapped.take 3) ∧
    (3 ≤ (tier1Targets mapped ips).length →
        selectTargets mapped ips now = tier1Targets mapped ips) ∧
    (upcomingIterations mapped now).Pairwise (fun a b => a.start ≤ b.start) ∧
    (∀ m : Iteration, m ∈ upcomingIterations mapped now ↔ m ∈ mapped ∧ now ≤ m.finish) := by
  refine ⟨?_, ?_, ?_, ?_, ?_⟩
  · intro h1 h2
    simp only [selectTargets, if_pos h1]
    rw [if_neg]
    rw [List.length_take]
    omega
  · intro h1 h2
    simp only [selectTargets, if_pos h1]
    rw [if_pos]
    rw [List.length_take]
    omega
  · intro h3
    simp only [selectTargets,
      if_neg (show ¬ (tier1Targets mapped ips).length < 3 by omega)]
  · exact List.Pairwise.sublist (List.filter_sublist _) hsorted
  · intro m
    simp [upcomingIterations, List.mem_filter]

theorem selectTargets_three_tier_witness :
    selectTargets [⟨"a", 0, 5⟩, ⟨"b", 10, 15⟩, ⟨"c", 20, 25⟩, ⟨"d", 30, 35⟩] none 8 =
      (upcomingIterations [⟨"a", 0, 5⟩, ⟨"b", 10, 15⟩, ⟨"c", 20, 25⟩, ⟨"d", 30, 35⟩] 8).take 3 ∧
    selectTargets [⟨"a", 0, 5⟩, ⟨"b", 10, 15⟩, ⟨"c", 20, 25⟩, ⟨"d", 30, 35⟩] none 8 =
      [⟨"b", 10, 15⟩, ⟨"c", 20, 25⟩, ⟨"d", 30, 35⟩] :=
  ⟨(selectTargets_three_tier _ none 8 (by decide)).1 (by decide) (by decide), by decide⟩

theorem foldl_add_eq_sum {α : Type} (f : α → ℚ) :
    ∀ (l : List α) (acc : ℚ), l.foldl (fun a x => a + f x) acc = acc + (l.map f).sum := by
  intro l
  induction l with
  | nil => intro acc; simp
  | cons x xs ih =>
      intro acc
      rw [List.foldl_cons, ih, List.map_cons, List.sum_cons]
      ring

theorem iterationCapacitySum_acc (path : String) (hpath : path ≠ "") (W : ℚ) :
    ∀ (caps : List CapacityRecord) (acc : ℚ),
      caps.foldl
        (fun acc cap =>
          match cap.iterationPath with
          | some p =>
              if p ≠ "" ∧ p = path then
                match cap.activities with
                | some acts =>
                    acts.foldl
                      (fun a act =>
                        a + max 0 (numOr0 act.capacityPerDay *
                          (W - numOr0 act.daysOff)))
                      acc
                | none => acc
              else acc
          | none => acc)
        acc = acc + specCapacitySum caps path W := by
  intro caps
  induction caps with
  | nil => intro acc; simp [specCapacitySum]
  | cons c cs ih =>
      intro acc
      rw [List.foldl_cons]
      rcases hip : c.iterationPath with _ | p
      · simp only [hip]
        rw [ih]
        have hs : specCapacitySum (c :: cs) path W = specCapacitySum cs path W := by
          simp [specCapacitySum, List.filter_cons, hip]
        rw [hs]
      · by_cases hpp : p = path
        · have hcond : p ≠ "" ∧ p = path := ⟨by rw [hpp]; exact hpath, hpp⟩
          simp only [hip, if_pos hcond]
          have hfilter : (c :: cs).filter (fun c => c.iterationPath == some path) =
              c :: cs.filter (fun c => c.iterationPath == some path) := by
            simp [List.filter_cons, hip, hpp]
          rcases hact : c.activities with _ | acts
          · simp only [hact]
            rw [ih]
            have hs : specCapacitySum (c :: cs) path W = specCapacitySum cs path W := by
              simp [specCapacitySum, hfilter, hact]
            rw [hs]
          · simp only [hact]
            rw [ih, foldl_add_eq_sum]
            have hs : specCapacitySum (c :: cs) path W =
                (acts.map (fun act =>
                  max 0 (numOr0 act.capacityPerDay * (W - numOr0 act.daysOff)))).sum +
                specCapacitySum cs path W := by
              simp [specCapacitySum, hfilter, hact]
            rw [hs]
            ring
        · simp only [hip]
          rw [ih]
          rw [if_neg (show ¬(p ≠ "" ∧ p = path) from fun hc => hpp hc.2)]
          have hs : specCapacitySum (c :: cs) path W = specCapacitySum cs path W := by
            simp [specCapacitySum, List.filter_cons, hip, hpp]
          rw [hs]

theorem iterationCapacitySum_eq_spec (allCaps : List CapacityRecord) (path : String)
    (hpath : path ≠ "") (W : ℚ) :
    iterationCapacitySum allCaps path W = specCapacitySum allCaps path W := by
  rw [iterationCapacitySum, iterationCapacitySum_acc path hpath W allCaps 0, zero_add]

theorem specCapacitySum_nonneg (allCaps : List CapacityRecord) (path : String) (W : ℚ) :
    0 ≤ specCapacitySum allCaps path W := by
  apply List.sum_nonneg
  intro x hx
  rw [List.mem_map] at hx
  obtain ⟨act, _, rfl⟩ := hx
  exact le_max_left 0 _

theorem teamSizeOf_pos (members : Option (List Unit)) : 0 < teamSizeOf members := by
  rw [teamSizeOf]
  rcases members with _ | ms
  · simp
  · simp only [Option.getD_some]
    split <;> omega

/-- C2: for a selected iteration (with its non-empty ADO path), the detailed
per-member accumulation equals the sum, over the activities of the fetched
capacity records whose `iterationPath` matches the iteration's path, of
`max(0, capacityPerDay × (totalWorkDays − daysOff))`; that sum is never
negative, it is used verbatim as the capacity whenever it is positive, and
exactly when it is zero the fallback `totalWorkDays × teamSize` is used —
where teamSize is the count of fetched team members, or 1 when the member
list could not be fetched (modelled `none`, the catch leaves the list
empty) or is empty. -/
theorem computeIterationCapacity_spec (allCaps : List CapacityRecord)
    (members : Option (List Unit)) (it : Iteration) (hpath : it.path ≠ "") :
    iterationCapacitySum allCaps it.path ((countBusinessDays it.start it.finish : ℚ)) =
      specCapacitySum allCaps it.path ((countBusinessDays it.start it.finish : ℚ)) ∧
    0 ≤ iterationCapacitySum allCaps it.path ((countBusinessDays it.start it.finish : ℚ)) ∧
    (0 < iterationCapacitySum allCaps it.path ((countBusinessDays it.start it.finish : ℚ)) →
      computeIterationCapacity allCaps (teamSizeOf members) it =
        iterationCapacitySum allCaps it.path ((countBusinessDays it.start it.finish : ℚ))) ∧
    (iterationCapacitySum allCaps it.path ((countBusinessDays it.start it.finish : ℚ)) = 0 →
      computeIterationCapacity allCaps (teamSizeOf members) it =
        ((countBusinessDays it.start it.finish : ℚ)) * (teamSizeOf members : ℚ)) ∧
    ((members.getD []) ≠ [] → teamSizeOf members = (members.getD []).length) ∧
    ((members.getD []) = [] → teamSizeOf members = 1) := by
  refine ⟨iterationCapacitySum_eq_spec _ _ hpath _, ?_, ?_, ?_, ?_, ?_⟩
  · rw [iterationCapacitySum_eq_spec _ _ hpath _]
    exact specCapacitySum_nonneg _ _ _
  · intro hpos
    simp only [computeIterationCapacity]
    rw [if_neg (show ¬ (iterationCapacitySum allCaps it.path
        ((countBusinessDays it.start it.finish : ℚ)) = 0 ∧ 0 < teamSizeOf members) from
      fun hc => absurd hc.1 (ne_of_gt hpos))]
    exact max_eq_right (le_of_lt hpos)
  · intro hzero
    simp only [computeIterationCapacity]
    rw [if_pos (And.intro hzero (teamSizeOf_pos members))]
    refine max_eq_right ?_
    apply mul_nonneg
    · exact Nat.cast_nonneg _
    · exact Nat.cast_nonneg _
  · intro hne
    simp only [teamSizeOf]
    rw [if_neg (show ¬ (members.getD []).length = 0 by
      simpa [List.length_eq_zero] using hne)]
  · intro heq
    simp only [teamSizeOf]
    simp [heq]

theorem computeIterationCapacity_spec_witness :
    computeIterationCapacity
        [⟨some "S1", some [⟨some 1, some 2⟩, ⟨some 1, some 0⟩]⟩]
        (teamSizeOf (some [(), (), (), ()]))
        ⟨"S1", 4, 15⟩ = 18 := by
  have h := computeIterationCapacity_spec
      [⟨some "S1", some [⟨some 1, some 2⟩, ⟨some 1, some 0⟩]⟩]
      (some [(), (), (), ()]) ⟨"S1", 4, 15⟩ (by decide)
  have hS : iterationCapacitySum
      [⟨some "S1", some [⟨some 1, some 2⟩, ⟨some 1, some 0⟩]⟩] "S1"
      ((countBusinessDays 4 15 : ℚ)) = 18 := by
    have hW : ((countBusinessDays 4 15 : ℕ) : ℚ) = 10 := by
      norm_num [countBusinessDays, countBusinessDaysGo, jsGetDay]
    rw [iterationCapacitySum, hW]
    simp only [List.foldl_cons, List.foldl_nil]
    norm_num [numOr0, max_def, (show ("S1" : String) ≠ "" by decide)]
  have hpos : (0:ℚ) < iterationCapacitySum
      [⟨some "S1", some [⟨some 1, some 2⟩, ⟨some 1, some 0⟩]⟩] "S1"
      ((countBusinessDays 4 15 : ℚ)) := by
    rw [hS]
    norm_num
  exact (h.2.2.1 hpos).trans hS

theorem capacitySlot_nonneg (targets : List Iteration) (allCaps : List CapacityRecord)
    (teamSize : Nat) (i : Nat) : 0 ≤ capacitySlot targets allCaps teamSize i := by
  rw [capacitySlot]
  rcases targets[i]? with _ | it
  · exact le_refl 0
  · exact le_max_left 0 _

theorem capacitySlot_of_missing (targets : List Iteration) (allCaps : List CapacityRecord)
    (teamSize : Nat) (i : Nat) (h : targets.length ≤ i) :
    capacitySlot targets allCaps teamSize i = 0 := by
  rw [capacitySlot, List.getElem?_eq_none h]

/-- C6: every /compute-capacity success response has non-negative capacity
values n, n1, n2, and every slot for which no iteration was selected (the
target list being shorter than three) is exactly 0. -/
theorem capacityResponse_spec (targets : List Iteration) (allCaps : List CapacityRecord)
    (teamSize : Nat) :
    0 ≤ (capacityResponse targets allCaps teamSize).n ∧
    0 ≤ (capacityResponse targets allCaps teamSize).n1 ∧
    0 ≤ (capacityResponse targets allCaps teamSize).n2 ∧
    (targets.length = 0 → (capacityResponse targets allCaps teamSize).n = 0) ∧
    (targets.length ≤ 1 → (capacityResponse targets allCaps teamSize).n1 = 0) ∧
    (targets.length ≤ 2 → (capacityResponse targets allCaps teamSize).n2 = 0) := by
  refine ⟨capacitySlot_nonneg _ _ _ _, capacitySlot_nonneg _ _ _ _,
    capacitySlot_nonneg _ _ _ _, ?_, ?_, ?_⟩
  · intro h
    exact capacitySlot_of_missing _ _ _ _ (by omega)
  · intro h
    exact capacitySlot_of_missing _ _ _ _ h
  · intro h
    exact capacitySlot_of_missing _ _ _ _ h

theorem capacityResponse_spec_witness :
    0 ≤ (capacityResponse [⟨"S1", 4, 15⟩] [] 3).n ∧
    (capacityResponse [⟨"S1", 4, 15⟩] [] 3).n1 = 0 ∧
    (capacityResponse [⟨"S1", 4, 15⟩] [] 3).n2 = 0 :=
  ⟨(capacityResponse_spec [⟨"S1", 4, 15⟩] [] 3).1,
   (capacityResponse_spec [⟨"S1", 4, 15⟩] [] 3).2.2.2.2.1 (by decide),
   (capacityResponse_spec [⟨"S1", 4, 15⟩] [] 3).2.2.2.2.2 (by decide)⟩

theorem except_toOption_isSome {ε α : Type} (e : Except ε α) (h : e.isOk) :
    e.toOption.isSome := by
  rcases e with x | a
  · simp [Except.isOk, Except.toBool] at h
  · simp [Except.toOption]

theorem createTasksLoop_all_ok (calls : List (CreateTaskInput × Except Unit Nat)) :
    ∀ acc : List Nat, (∀ c ∈ calls, c.2.isOk) →
      createTasksLoop calls acc =
        (CreateTasksResponse.ok (acc ++ calls.filterMap (fun c => c.2.toOption)),
          acc ++ calls.filterMap (fun c => c.2.toOption)) := by
  induction calls with
  | nil => intro acc h; simp [createTasksLoop]
  | cons c cs ih =>
      intro acc h
      obtain ⟨t, outcome⟩ := c
      rcases outcome with e | a
      · have hbad := h (t, Except.error e) (List.mem_cons_self _ _)
        simp [Except.isOk, Except.toBool] at hbad
      · simp only [createTasksLoop]
        rw [ih (acc ++ [a]) (fun x hx => h x (List.mem_cons_of_mem _ hx))]
        simp [Except.toOption, List.filterMap_cons]

theorem createTasksLoop_fail (c : CreateTaskInput × Except Unit Nat)
    (hc : c.2 = Except.error ()) :
    ∀ (pre post : List (CreateTaskInput × Except Unit Nat)) (acc : List Nat),
      (∀ p ∈ pre, p.2.isOk) →
      createTasksLoop (pre ++ c :: post) acc =
        (CreateTasksResponse.err 500 "Task creation failed",
          acc ++ pre.filterMap (fun p => p.2.toOption)) := by
  intro pre
  induction pre with
  | nil =>
      intro post acc h
      obtain ⟨t, o⟩ := c
      have hc' : o = Except.error () := hc
      simp [createTasksLoop, hc']
  | cons p ps ih =>
      intro post acc h
      obtain ⟨t, o⟩ := p
      rcases o with e | a
      · have hbad := h (t, Except.error e) (List.mem_cons_self _ _)
        simp [Except.isOk, Except.toBool] at hbad
      · simp only [List.cons_append, createTasksLoop, List.append_eq]
        rw [ih post (acc ++ [a]) (fun x hx => h x (List.mem_cons_of_mem _ hx))]
        simp [Except.toOption, List.filterMap_cons]

/-- C7: the /create-tasks handler issues one outbound create call per task,
sequentially in input order.  If every call succeeds, the response is
`{ success: true, createdTasks }` with the N created ids in input order,
and exactly those N items exist upstream.  If the k-th call fails, the
response is status 500 `{ error: "Task creation failed" }` — a body that
reports nothing about which items succeeded — and exactly the first k−1
items remain created upstream, with no rollback. -/
theorem createTasksHandler_spec (calls : List (CreateTaskInput × Except Unit Nat)) :
    ((∀ c ∈ calls, c.2.isOk) →
      createTasksHandler calls =
        (CreateTasksResponse.ok (calls.filterMap (fun c => c.2.toOption)),
          calls.filterMap (fun c => c.2.toOption)) ∧
      (calls.filterMap (fun c => c.2.toOption)).length = calls.length) ∧
    (∀ pre c post, calls = pre ++ c :: post → (∀ p ∈ pre, p.2.isOk) →
      c.2 = Except.error () →
      createTasksHandler calls =
        (CreateTasksResponse.err 500 "Task creation failed",
          pre.filterMap (fun p => p.2.toOption)) ∧
      (pre.filterMap (fun p => p.2.toOption)).length = pre.length) := by
  constructor
  · intro h
    refine ⟨?_, ?_⟩
    · rw [createTasksHandler, createTasksLoop_all_ok calls [] h]
      simp
    · exact length_filterMap_of_isSome _ calls
        (fun c hc => except_toOption_isSome c.2 (h c hc))
  · intro pre c post heq hpre hc
    refine ⟨?_, ?_⟩
    · rw [createTasksHandler, heq, createTasksLoop_fail c hc pre post [] hpre]
      simp
    · exact length_filterMap_of_isSome _ pre
        (fun p hp => except_toOption_isSome p.2 (hpre p hp))

theorem createTasksHandler_spec_witness :
    createTasksHandler
        [(⟨"T1", "d1"⟩, Except.ok 101), (⟨"T2", "d2"⟩, Except.ok 102)] =
      (CreateTasksResponse.ok [101, 102], [101, 102]) ∧
    createTasksHandler
        [(⟨"T1", "d1"⟩, Except.ok 101), (⟨"T2", "d2"⟩, Except.error ())] =
      (CreateTasksResponse.err 500 "Task creation failed", [101]) := by
  constructor
  · have h := (createTasksHandler_spec
        [(⟨"T1", "d1"⟩, Except.ok 101), (⟨"T2", "d2"⟩, Except.ok 102)]).1 (by decide)
    exact h.1.trans (by decide)
  · have h := (createTasksHandler_spec
        [(⟨"T1", "d1"⟩, Except.ok 101), (⟨"T2", "d2"⟩, Except.error ())]).2
        [(⟨"T1", "d1"⟩, Except.ok 101)] (⟨"T2", "d2"⟩, Except.error ()) [] rfl
        (by decide) rfl
    exact h.1.trans (by decide)

theorem updateStoriesRun_skip (s : StoryUpdate)
    (hskip : s.id = none ∨ (s.title = none ∧ s.storyPoints = none)) :
    ∀ pre post, updateStoriesRun (pre ++ s :: post) = updateStoriesRun (pre ++ post) := by
  have hone : ∀ post, updateStoriesRun (s :: post) = updateStoriesRun post := by
    intro post
    rcases hskip with hid | ⟨ht, hp⟩
    · simp [updateStoriesRun, hid]
    · have hops : storyOps s = [] := by simp [storyOps, ht, hp]
      rcases hid : s.id with _ | i
      · simp [updateStoriesRun, hid]
      · by_cases hi : i = 0
        · simp [updateStoriesRun, hid, hi]
        · simp [updateStoriesRun, hid, hi, hops]
  intro pre
  induction pre with
  | nil => intro post; exact hone post
  | cons p ps ih =>
      intro post
      simp only [List.cons_append]
      rcases hid : p.id with _ | i
      · simp [updateStoriesRun, hid, ih]
      · by_cases hi : i = 0
        · simp [updateStoriesRun, hid, hi, ih]
        · by_cases hl : 0 < (storyOps p).length
          · simp [updateStoriesRun, hid, hi, hl, ih]
          · simp [updateStoriesRun, hid, hi, hl, ih]

theorem updateStoriesRun_ids_calls (stories : List StoryUpdate) :
    (updateStoriesRun stories).2 =
      (stories.filter (fun s => hasTruthyId s && decide (0 < (storyOps s).length))).map
        (fun s => (s.id.getD 0, storyOps s)) ∧
    (updateStoriesRun stories).1 = ((updateStoriesRun stories).2).map Prod.fst := by
  induction stories with
  | nil => simp [updateStoriesRun]
  | cons s rest ih =>
      rcases hid : s.id with _ | i
      · have hft : hasTruthyId s = false := by simp [hasTruthyId, hid]
        simp [updateStoriesRun, hid, List.filter_cons, hft, ih.1, ih.2]
      · by_cases hi : i = 0
        · have hft : hasTruthyId s = false := by simp [hasTruthyId, hid, hi]
          simp [updateStoriesRun, hid, hi, List.filter_cons, hft, ih.1, ih.2]
        · have hft : hasTruthyId s = true := by simp [hasTruthyId, hid, hi]
          by_cases hl : 0 < (storyOps s).length
          · simp [updateStoriesRun, hid, hi, hl, List.filter_cons, hft, ih.1, ih.2]
          · simp [updateStoriesRun, hid, hi, hl, List.filter_cons, hft, ih.1, ih.2]

/-- C9: in /update-stories, a story entry without an id, or whose title and
storyPoints are both undefined, is silently skipped — deleting such an
entry from the input changes neither the outbound patch calls nor the
response — and `updatedIds` lists exactly the ids of the stories for which
a patch call was issued (those with a truthy id and at least one op), in
input order. -/
theorem updateStories_spec (stories : List StoryUpdate) :
    (updateStoriesRun stories).1 = ((updateStoriesRun stories).2).map Prod.fst ∧
    (updateStoriesRun stories).2 =
      (stories.filter (fun s => hasTruthyId s && decide (0 < (storyOps s).length))).map
        (fun s => (s.id.getD 0, storyOps s)) ∧
    ∀ pre s post, stories = pre ++ s :: post →
      (s.id = none ∨ (s.title = none ∧ s.storyPoints = none)) →
      updateStoriesRun stories = updateStoriesRun (pre ++ post) :=
  ⟨(updateStoriesRun_ids_calls stories).2, (updateStoriesRun_ids_calls stories).1,
   fun pre s post heq hskip => heq ▸ updateStoriesRun_skip s hskip pre post⟩

theorem updateStories_spec_witness :
    updateStoriesRun
        [⟨some 7, some "t", none⟩, ⟨none, some "x", none⟩, ⟨some 9, none, none⟩] =
      updateStoriesRun [⟨some 7, some "t", none⟩, ⟨some 9, none, none⟩] ∧
    (updateStoriesRun
        [⟨some 7, some "t", none⟩, ⟨none, some "x", none⟩, ⟨some 9, none, none⟩]).1 =
      [7] :=
  ⟨(updateStories_spec
      [⟨some 7, some "t", none⟩, ⟨none, some "x", none⟩, ⟨some 9, none, none⟩]).2.2
      [⟨some 7, some "t", none⟩] ⟨none, some "x", none⟩ [⟨some 9, none, none⟩] rfl
      (Or.inl rfl),
   by decide⟩

/-- C10: when the generation service returns a completion whose first
choice carries no string message content, `generate` returns the empty
string instead of throwing, so /analyze with a valid (truthy) title and
action responds 200 with `{ output: "" }`. -/
theorem analyzeHandler_empty_output (title action : String) (c : ChatCompletion)
    (htitle : title ≠ "") (haction : action ≠ "")
    (hc : ∀ s : String, extractContent c ≠ some (JsValue.str s)) :
    generateResult c = "" ∧
    analyzeHandler title action c = AnalyzeResponse.ok "" := by
  have hg : generateResult c = "" := by
    rw [generateResult]
    rcases hx : extractContent c with _ | v
    · rfl
    · cases v with
      | str s => exact absurd hx (hc s)
      | nonString => rfl
  refine ⟨hg, ?_⟩
  rw [analyzeHandler, if_neg (show ¬(title = "" ∨ action = "") from
    fun h => h.elim htitle haction), hg]

theorem analyzeHandler_empty_output_witness :
    generateResult ⟨some [⟨some ⟨some JsValue.nonString⟩⟩]⟩ = "" ∧
    analyzeHandler "Add login" "description" ⟨some [⟨some ⟨some JsValue.nonString⟩⟩]⟩ =
      AnalyzeResponse.ok "" :=
  analyzeHandler_empty_output "Add login" "description"
    ⟨some [⟨some ⟨some JsValue.nonString⟩⟩]⟩ (by decide) (by decide)
    (fun s h => by simp [extractContent] at h)

/-- C8: for every action string outside the recognized set (sprintplan,
stories, tasks, testcases, description, criteria, tests, bug), buildPrompt
falls through the whole switch and returns the bare title string unchanged
— a silent fallback, not an error. -/
theorem buildPrompt_default (title desc ty action : String)
    (sprintPoints : Option SprintPoints) (storiesJson : String)
    (h1 : action ≠ "sprintplan") (h2 : action ≠ "stories") (h3 : action ≠ "tasks")
    (h4 : action ≠ "testcases") (h5 : action ≠ "description") (h6 : action ≠ "criteria")
    (h7 : action ≠ "tests") (h8 : action ≠ "bug") :
    buildPrompt title desc ty action sprintPoints storiesJson = title := by
  simp [buildPrompt, h1, h2, h3, h4, h5, h6, h7, h8]

theorem buildPrompt_default_witness :
    buildPrompt "Add login" "some description" "User Story" "unknown-action" none "[]" =
      "Add login" :=
  buildPrompt_default "Add login" "some description" "User Story" "unknown-action" none "[]"
    (by decide) (by decide) (by decide) (by decide) (by decide) (by decide)
    (by decide) (by decide)
